import Mathlib

/-!
Verification of the CodularBackend task-generation and submission-evaluation
pipeline (Go), as a shallow embedding in Lean 4.

Conventions of the embedding:

* Go errors are `GoErr` values carrying an allocation identity (`id`) and a
  message.  Go's `errors.Is` on errors that carry no wrapped cause compares
  interface identity (pointer equality); every call to `fmt.Errorf` allocates
  a fresh value, so two separately allocated errors are never `errors.Is`-equal
  even when their messages coincide.  We model this by giving distinct `id`s to
  distinct allocation sites that can meet in a comparison.
* The durable RecordStore (PostgreSQL tables `tasks`, `aliases`, `submissions`)
  and the ephemeral StatusCache (Redis `task_status:*` hashes) are explicit
  state records threaded through the functions.
* Outcomes of external effects (the OpenRouter LLM call, success or failure of
  individual database statements, the bytes drawn from `crypto/rand`) are
  oracle parameters, so each theorem quantifies over all possible outcomes.
* Background workers additionally return an event trace, used to state
  temporal ordering properties.
-/

/-- A Go `error` value: `id` is the allocation identity (pointer), `msg` the
rendered message.  Mirrors `fmt.Errorf` results, which carry no wrapped cause
when no `%w` verb is used (none of the relevant call sites uses `%w`). -/
structure GoErr where
  id : Nat
  msg : String
  deriving DecidableEq, Repr

/-- Go `errors.Is` for errors without a wrapped cause and without an `Is`
method: interface identity comparison. -/
def goErrorsIs (e target : GoErr) : Bool :=
  e.id == target.id

instance {ε α : Type} [DecidableEq ε] [DecidableEq α] : DecidableEq (Except ε α) :=
  fun x y =>
    match x, y with
    | .ok u, .ok v =>
      if h : u = v then isTrue (by rw [h]) else isFalse (by simp [h])
    | .error u, .error v =>
      if h : u = v then isTrue (by rw [h]) else isFalse (by simp [h])
    | .ok _, .error _ => isFalse (by simp)
    | .error _, .ok _ => isFalse (by simp)

/-- `database.TaskStatus` (database.go): the ephemeral status blob stored in
Redis under `task_status:<alias>`. -/
structure TaskStatus where
  status : String
  result : String := ""
  error : String := ""
  deriving DecidableEq, Repr

/-- One task row of the `tasks` table (the columns the verified claims
mention: owner, type, generated code, original code, answers, language). -/
structure TaskRow where
  userId : Int
  type : String
  taskCode : String
  userOriginalCode : String := ""
  answers : List String
  programmingLanguageId : Int
  deriving DecidableEq, Repr

/-- One submission row of the `submissions` table.  `hints = none` models SQL
`NULL`, `score = none` a `NULL` score. -/
structure SubmissionRow where
  taskAlias : String
  submissionCode : List String
  status : String
  score : Option Int := none
  hints : Option (List String) := none
  deriving DecidableEq, Repr

/-- The durable RecordStore: `tasks` keyed by task id, `aliases` mapping an
alias string to a task id, `submissions` keyed by submission id. -/
structure RecordStore where
  tasks : List (Int × TaskRow) := []
  aliases : List (String × Int) := []
  nextTaskId : Int := 1
  submissions : List (Int × SubmissionRow) := []
  deriving DecidableEq, Repr

/-- The ephemeral StatusCache: association list keyed by alias; a fresh write
is consed in front, so `lookup` (first match) realises last-write-wins. -/
abbrev StatusCache := List (String × TaskStatus)

/-- `Storage.SetTaskStatus` (database.go): overwrite the status blob for an
alias.  The Redis `HSET` either succeeds (cache updated) or fails (cache
unchanged); `ok` is the oracle for that outcome. -/
def setTaskStatus (c : StatusCache) (a : String) (st : TaskStatus) (ok : Bool) :
    StatusCache :=
  if ok then (a, st) :: c else c

/-- `Storage.GetTaskStatus` (database.go): read the status blob for an alias
from Redis.  A missing key (`redis.Nil`) yields the not-found error allocated
inside the storage layer; we give that allocation site id 0. -/
def getTaskStatusDb (c : StatusCache) (a : String) : Except GoErr TaskStatus :=
  match List.lookup a c with
  | some st => .ok st
  | none => .error { id := 0, msg := "task status not found for alias: " ++ a }

/-- `Storage.CheckAliasExist` (database.go): SQL `EXISTS` over `aliases`. -/
def checkAliasExist (s : RecordStore) (a : String) : Bool :=
  (List.lookup a s.aliases).isSome

/-- `Storage.GetSavedCode` (database.go): join `aliases` with `tasks` and
return `tasks.taskCode`; `pgx.ErrNoRows` becomes `storage.ErrCodeNotFound`. -/
def getSavedCode (s : RecordStore) (a : String) : Except GoErr String :=
  match List.lookup a s.aliases with
  | none => .error { id := 2, msg := "code not found" }
  | some taskId =>
    match List.lookup taskId s.tasks with
    | none => .error { id := 2, msg := "code not found" }
    | some row => .ok row.taskCode

/-- `Storage.GetCodeAnswers` (database.go): join `aliases` with `tasks` and
return `tasks.answers`.  On `pgx.ErrNoRows` the Go function returns the pair
`([]string{}, storage.ErrCodeNotFound)`: the error AND an empty slice, which
the callers keep in scope.  We model the result as the pair the caller sees. -/
def getCodeAnswers (s : RecordStore) (a : String) : List String × Option GoErr :=
  match List.lookup a s.aliases with
  | none => ([], some { id := 2, msg := "code not found" })
  | some taskId =>
    match List.lookup taskId s.tasks with
    | none => ([], some { id := 2, msg := "code not found" })
    | some row => (row.answers, none)

section Base64

/-- The 64-character alphabet of Go's `base64.URLEncoding`. -/
def base64urlAlphabet : List Char :=
  "ABCDEFGHIJKLMNOPQRSTUVWXYZabcdefghijklmnopqrstuvwxyz0123456789-_".toList

/-- Character of the URL-safe base64 alphabet at a sextet value. -/
def b64c (n : Nat) : Char := base64urlAlphabet.getD n (Char.ofNat 65)

/-- Go `base64.URLEncoding.EncodeToString` on a byte list (bytes as `Nat`),
producing the character list of the encoded string, `'='`-padded. -/
def base64urlEncode : List Nat → List Char
  | [] => []
  | [b0] => [b64c (b0 / 4), b64c (b0 % 4 * 16), Char.ofNat 61, Char.ofNat 61]
  | [b0, b1] => [b64c (b0 / 4), b64c (b0 % 4 * 16 + b1 / 16),
      b64c (b1 % 16 * 4), Char.ofNat 61]
  | b0 :: b1 :: b2 :: rest =>
      b64c (b0 / 4) :: b64c (b0 % 4 * 16 + b1 / 16) ::
      b64c (b1 % 16 * 4 + b2 / 64) :: b64c (b2 % 64) :: base64urlEncode rest

/-- `generateAlias` (generate/skips/skips.go and generate/noises/noises.go):
draw `length` random bytes, URL-safe base64-encode them, keep the first
`length` characters (Go string slicing `[:length]` of an ASCII string).
The drawn bytes are the oracle parameter `bytes`. -/
def generateAlias (bytes : List Nat) (length : Nat) : String :=
  String.mk ((base64urlEncode bytes).take length)

end Base64

section AliasAllocation

/-- The alias-allocation loop of the generation handlers (`New`,
generate/skips/skips.go lines 131-143 and generate/noises/noises.go lines
372-384):

    aliasExistsInDb := true
    for aliasExistsInDb {
        alias = generateAlias(cfg.AliasLength)
        aliasExistsInDb, err = storage.CheckAliasExist(alias)
        if err != nil { <500 response>; return }
    }

`rand k` is the byte string drawn by `crypto/rand` on attempt `k`; `check k`
is the outcome of `CheckAliasExist` on attempt `k` (`.ok true` = row exists,
`.ok false` = free, `.error` = persistence failure).  The Go loop has no
bound; `fuel` only limits how far we unfold it, with `none` meaning the loop
has not terminated within `fuel` iterations. -/
def allocateAliasLoop (length : Nat) (rand : Nat → List Nat)
    (check : Nat → Except GoErr Bool) : Nat → Nat → Option (Except GoErr String)
  | _, 0 => none
  | k, fuel + 1 =>
    let a := generateAlias (rand k) length
    match check k with
    | .error e => some (.error e)
    | .ok true => allocateAliasLoop length rand check (k + 1) fuel
    | .ok false => some (.ok a)

/-- Outcome of the handler's alias-allocation phase as seen by the HTTP
caller: either an alias, or the 500 response the handler renders when
`CheckAliasExist` fails. -/
inductive AliasPhaseResult where
  | allocated (a : String)
  | internalError (msg : String)
  deriving DecidableEq, Repr

/-- The alias-allocation phase of `New` mapped to its HTTP-visible outcome:
a `CheckAliasExist` error makes the handler write status 500 with body
`"failed to check alias existence in db"` and return. -/
def newHandlerAliasPhase (length : Nat) (rand : Nat → List Nat)
    (check : Nat → Except GoErr Bool) (fuel : Nat) : Option AliasPhaseResult :=
  match allocateAliasLoop length rand check 0 fuel with
  | none => none
  | some (.ok a) => some (.allocated a)
  | some (.error _) => some (.internalError "failed to check alias existence in db")

end AliasAllocation

section GenerationWorker

/-- Outcome of the transactional compound write in
`Storage.SaveSkipsCodeWithAlias` (database.go lines 141-179): which statement
of the transaction fails, if any.  Only `.committed` reaches `tx.Commit`. -/
inductive TxOutcome where
  | beginFail (e : GoErr)
  | insertTaskFail (e : GoErr)
  | insertAliasFail (e : GoErr)
  | commitFail (e : GoErr)
  | committed
  deriving DecidableEq, Repr

/-- `Storage.SaveSkipsCodeWithAlias` (database.go lines 141-179): inside one
transaction, insert a `tasks` row (type `"skips"`) and an `aliases` row, then
commit.  The deferred `tx.Rollback` means the store is unchanged unless the
commit succeeds: both rows exist afterwards, or neither does.  The returned
row ids are opaque to every caller (all discard them), so the alias row id is
modeled by the task id. -/
def saveSkipsCodeWithAlias (s : RecordStore) (skipsCode : String)
    (answers : List String) (programmingLanguageId userID : Int) (a : String)
    (tx : TxOutcome) : RecordStore × Except GoErr (Int × Int) :=
  match tx with
  | .beginFail e => (s, .error { e with msg := "failed to begin transaction: " ++ e.msg })
  | .insertTaskFail e => (s, .error { e with msg := "failed to insert task: " ++ e.msg })
  | .insertAliasFail e => (s, .error { e with msg := "failed to insert alias: " ++ e.msg })
  | .commitFail e => (s, .error { e with msg := "failed to commit transaction: " ++ e.msg })
  | .committed =>
    let taskId := s.nextTaskId
    let row : TaskRow :=
      { userId := userID, type := "skips", taskCode := skipsCode,
        answers := answers, programmingLanguageId := programmingLanguageId }
    ({ s with
        tasks := (taskId, row) :: s.tasks,
        aliases := (a, taskId) :: s.aliases,
        nextTaskId := taskId + 1 },
      .ok (taskId, taskId))

/-- Decoded `LLMResponse` of the skips generator (skips.go lines 36-40). -/
structure LLMSkipsResponse where
  description : String
  skipsCode : String
  answers : List String
  deriving DecidableEq, Repr

/-- Oracle for one run of the skips generation worker: outcome of
`ProcessCode` (a straight-line composition of external effects: YAML prompt
load, OpenRouter call, JSON decode — every branch is decided by an external
result), the transaction outcome of `SaveSkipsCodeWithAlias`, and whether
each Redis `SetTaskStatus` write succeeds if attempted. -/
structure GenOracle where
  proc : Except GoErr LLMSkipsResponse
  tx : TxOutcome
  setErrorOk : Bool
  setDoneOk : Bool

/-- Events emitted by one generation-worker run, in program order. -/
inductive GenEvent where
  | dbCommit (a : String)
  | cacheWrite (a : String) (st : TaskStatus) (ok : Bool)
  deriving DecidableEq, Repr

/-- Combined mutable state seen by a generation worker. -/
structure GenState where
  store : RecordStore
  cache : StatusCache
  deriving DecidableEq

/-- `processTaskAsync` (generate/skips/skips.go lines 166-195): run
`ProcessCode`; on error write an `Error` status blob; otherwise persist via
`SaveSkipsCodeWithAlias`; on save error write an `Error` blob; on success
write the terminal `Done` blob carrying the generated code.  A failed Redis
write is only logged.  `code` and `skipsNumber` are consumed only by
`ProcessCode`, whose outcome is `o.proc`.  Returns the final state and the
event trace. -/
def processTaskAsync (g : GenState) (a _code : String) (_skipsNumber : Int)
    (programmingLanguageId userID : Int) (o : GenOracle) :
    GenState × List GenEvent :=
  match o.proc with
  | .error e =>
    let st : TaskStatus := { status := "Error", error := e.msg }
    ({ g with cache := setTaskStatus g.cache a st o.setErrorOk },
      [.cacheWrite a st o.setErrorOk])
  | .ok r =>
    match saveSkipsCodeWithAlias g.store r.skipsCode r.answers
        programmingLanguageId userID a o.tx with
    | (store', .error e) =>
      let st : TaskStatus := { status := "Error", error := "failed to save task: " ++ e.msg }
      ({ store := store', cache := setTaskStatus g.cache a st o.setErrorOk },
        [.cacheWrite a st o.setErrorOk])
    | (store', .ok _) =>
      let st : TaskStatus := { status := "Done", result := r.skipsCode }
      ({ store := store', cache := setTaskStatus g.cache a st o.setDoneOk },
        [.dbCommit a, .cacheWrite a st o.setDoneOk])

end GenerationWorker

section StatusPoll

/-- HTTP-visible outcome of the `GetTaskStatus` handler. -/
inductive StatusPollResponse where
  | ok (st : TaskStatus)
  | badRequest (msg : String)
  | notFound (msg : String)
  | internalError (msg : String)
  deriving DecidableEq, Repr

/-- `GetTaskStatus` handler (get_status/task_status/task_status.go lines
34-77).  The not-found test is

    errors.Is(err, fmt.Errorf("task status not found for alias: %s", alias))

which compares the storage error against a *freshly allocated* error value
(`fmt.Errorf` at the comparison site, allocation id 1).  `errors.Is` falls
back to interface identity for unwrapped errors, and the storage layer's
error was allocated at a different site (id 0), so the comparison is always
false and the 404 branch is dead: a missing cache entry renders the 500
response. -/
def getTaskStatusHandler (c : StatusCache) (a : String) : StatusPollResponse :=
  if a = "" then .badRequest "alias parameter is required"
  else
    match getTaskStatusDb c a with
    | .ok st => .ok st
    | .error e =>
      let target : GoErr := { id := 1, msg := "task status not found for alias: " ++ a }
      if goErrorsIs e target then .notFound "task not found"
      else .internalError "internal server error"

end StatusPoll

section SubmissionStore

/-- Shared row-update helper: SQL `UPDATE submissions ... WHERE id = $1`. -/
def updateSubmissionRow (l : List (Int × SubmissionRow)) (id : Int)
    (f : SubmissionRow → SubmissionRow) : List (Int × SubmissionRow) :=
  l.map (fun p => if p.1 = id then (p.1, f p.2) else p)

/-- `Storage.UpdateSubmissionStatusToFailed` (database.go lines 302-316 and
part_005 lines 447-461, identical): set status `Failed`, touching neither
hints nor score.  `ok` is the statement-failure oracle; zero rows affected
(unknown id) also yields an error. -/
def updateSubmissionStatusToFailed (s : RecordStore) (id : Int) (ok : Bool) :
    RecordStore × Option GoErr :=
  if !ok then (s, some { id := 3, msg := "failed to update submission status to Failed" })
  else if (List.lookup id s.submissions).isNone then
    (s, some { id := 3, msg := "submission with ID not found" })
  else
    ({ s with submissions :=
        updateSubmissionRow s.submissions id (fun r => { r with status := "Failed" }) },
      none)

/-- `Storage.UpdateSubmissionStatusToSuccess` (database.go lines 318-332, the
variant used by the skips checker): set status `Success` only. -/
def updateSubmissionStatusToSuccess (s : RecordStore) (id : Int) (ok : Bool) :
    RecordStore × Option GoErr :=
  if !ok then (s, some { id := 3, msg := "failed to update submission status to Success" })
  else if (List.lookup id s.submissions).isNone then
    (s, some { id := 3, msg := "submission with ID not found" })
  else
    ({ s with submissions :=
        updateSubmissionRow s.submissions id (fun r => { r with status := "Success" }) },
      none)

/-- `Storage.UpdateSubmissionStatusToSuccess` (part_005 lines 463-477, the
variant used by the noises checker): set status `Success` and the score. -/
def updateSubmissionStatusToSuccessScore (s : RecordStore) (id : Int) (score : Int)
    (ok : Bool) : RecordStore × Option GoErr :=
  if !ok then (s, some { id := 3, msg := "failed to update submission status to Success" })
  else if (List.lookup id s.submissions).isNone then
    (s, some { id := 3, msg := "submission with ID not found" })
  else
    ({ s with submissions :=
        (updateSubmissionRow s.submissions id
          (fun r => { r with status := "Success", score := some score })) },
      none)

/-- `Storage.UpdateSubmissionStatusToFailedWithHints` (database.go lines
334-354, skips-checker variant): set status `Failed` and the hints column,
writing SQL `NULL` when the hint list is empty (`len(hints) == 0`). -/
def updateSubmissionStatusToFailedWithHints (s : RecordStore) (id : Int)
    (hints : List String) (ok : Bool) : RecordStore × Option GoErr :=
  if !ok then (s, some { id := 3, msg := "failed to update submission status to Failed with hints" })
  else if (List.lookup id s.submissions).isNone then
    (s, some { id := 3, msg := "submission with ID not found" })
  else
    ({ s with submissions :=
        (updateSubmissionRow s.submissions id
          (fun r => { r with status := "Failed", hints := if hints = [] then none else some hints })) },
      none)

/-- `Storage.UpdateSubmissionStatusToFailedWithHints` (part_005 lines
479-499, noises-checker variant): additionally stores the score. -/
def updateSubmissionStatusToFailedWithHintsScore (s : RecordStore) (id : Int)
    (hints : List String) (score : Int) (ok : Bool) : RecordStore × Option GoErr :=
  if !ok then (s, some { id := 3, msg := "failed to update submission status to Failed with hints" })
  else if (List.lookup id s.submissions).isNone then
    (s, some { id := 3, msg := "submission with ID not found" })
  else
    ({ s with submissions :=
        (updateSubmissionRow s.submissions id
          (fun r => { r with status := "Failed", hints := if hints = [] then none else some hints, score := some score })) },
      none)

/-- `Storage.GetSubmissionHints` (part_005 lines 518-533 and database.go
lines 373-388): `SELECT COALESCE(hints, '{}')`, so a `NULL` hints column is
read back as the empty array, never as a nil slice. -/
def getSubmissionHints (s : RecordStore) (id : Int) : Except GoErr (List String) :=
  match List.lookup id s.submissions with
  | none => .error { id := 3, msg := "submission not found" }
  | some r => .ok (r.hints.getD [])

/-- Go multi-return convention for `Storage.GetSavedCode` /
`Storage.GetSavedTaskCode`: on error the string result is `""`, and both
values stay in the caller's scope. -/
def getSavedCodePair (s : RecordStore) (a : String) : String × Option GoErr :=
  match getSavedCode s a with
  | .ok c => (c, none)
  | .error e => ("", some e)

end SubmissionStore

section SubmissionWorkers

/-- One `{index, message}` hint of the skips-checker `LLMResponse`
(part_010 lines 39-42). -/
structure SkipsHint where
  index : Int
  message : String
  deriving DecidableEq, Repr

/-- Skips-checker verdict: `LLMResponse` of part_010 lines 34-37. -/
structure SkipsVerdict where
  status : String
  hints : List SkipsHint
  deriving DecidableEq, Repr

/-- Noises-checker verdict: `LLMResponse` of part_011 lines 32-35. -/
structure NoisesVerdict where
  score : Int
  hints : List String
  deriving DecidableEq, Repr

/-- The apostrophe character, as used in the hint format string. -/
def apos : String := (Char.ofNat 39).toString

/-- Hint rendering of the skips checker (part_010 line 223):
`strconv.Itoa(index) + "'th skip: " + message`. -/
def renderSkipHint (h : SkipsHint) : String :=
  toString h.index ++ apos ++ "th skip: " ++ h.message

/-- Events of one submission-worker run, in program order. -/
inductive SubEvent where
  | fetchAnswers
  | fetchCode
  | llmCall
  | updateFailed (ok : Bool)
  | updateSuccess (ok : Bool)
  | updateFailedWithHints (hints : List String) (ok : Bool)
  deriving DecidableEq, Repr

/-- Oracle for one skips-checker worker run: the judging-call outcome and,
per call site, whether the corresponding UPDATE statement succeeds. -/
structure SkipsCheckOracle where
  llmRes : Except GoErr SkipsVerdict
  updFailedAtAnswers : Bool
  updFailedAtCode : Bool
  updFailedAtLlm : Bool
  updSuccess : Bool
  updFailedAtSuccess : Bool
  updFailedWithHints : Bool
  updFailedAtHints : Bool

/-- Verdict handling of the skips checker (part_010 lines 209-239): status
`"ok"` updates to `Success`, anything else renders the hints and updates to
`Failed` with hints; a failed update falls back to the plain `Failed`
update, and only a failure of that fallback is merely logged. -/
def processVerdictSkips (s : RecordStore) (submissionID : Int) (v : SkipsVerdict)
    (o : SkipsCheckOracle) : RecordStore × List SubEvent :=
  if v.status = "ok" then
    match updateSubmissionStatusToSuccess s submissionID o.updSuccess with
    | (s1, none) => (s1, [.updateSuccess true])
    | (s1, some _) =>
      match updateSubmissionStatusToFailed s1 submissionID o.updFailedAtSuccess with
      | (s2, none) => (s2, [.updateSuccess false, .updateFailed true])
      | (s2, some _) => (s2, [.updateSuccess false, .updateFailed false])
  else
    let hints := v.hints.map renderSkipHint
    match updateSubmissionStatusToFailedWithHints s submissionID hints
        o.updFailedWithHints with
    | (s1, none) => (s1, [.updateFailedWithHints hints true])
    | (s1, some _) =>
      match updateSubmissionStatusToFailed s1 submissionID o.updFailedAtHints with
      | (s2, none) => (s2, [.updateFailedWithHints hints false, .updateFailed true])
      | (s2, some _) => (s2, [.updateFailedWithHints hints false, .updateFailed false])

/-- Judging stage of the skips checker (part_010 lines 188-239).
`processSubmission` either exits the whole process (`log.Fatalf` on prompt
load or transport failure, outside the model) or returns a possibly-zero
`&LLMResponse{}` together with an error; on a *returned* error the worker
updates to `Failed`, and — when that update succeeds — falls through (missing
`return`) and handles the zero-valued verdict `{status: "", hints: nil}`.
The `&llmResponse == nil` test compares the address of a local variable and
is constant false; it is elided. -/
def skipsCheckJudge (s : RecordStore) (submissionID : Int) (o : SkipsCheckOracle) :
    RecordStore × List SubEvent :=
  match o.llmRes with
  | .error _ =>
    match updateSubmissionStatusToFailed s submissionID o.updFailedAtLlm with
    | (s1, some _) => (s1, [.llmCall, .updateFailed false])
    | (s1, none) =>
      let next := processVerdictSkips s1 submissionID { status := "", hints := [] } o
      (next.1, .llmCall :: .updateFailed true :: next.2)
  | .ok v =>
    let next := processVerdictSkips s submissionID v o
    (next.1, .llmCall :: next.2)

/-- Stage of the skips checker after the answers fetch (part_010 lines
178-239): fetch the saved task code; on error update to `Failed` and — when
that update succeeds — fall through (missing `return`). -/
def skipsCheckAfterAnswers (s : RecordStore) (taskAlias : String)
    (submissionID : Int) (o : SkipsCheckOracle) : RecordStore × List SubEvent :=
  match (getSavedCodePair s taskAlias).2 with
  | some _ =>
    match updateSubmissionStatusToFailed s submissionID o.updFailedAtCode with
    | (s1, some _) => (s1, [.fetchCode, .updateFailed false])
    | (s1, none) =>
      let next := skipsCheckJudge s1 submissionID o
      (next.1, .fetchCode :: .updateFailed true :: next.2)
  | none =>
    let next := skipsCheckJudge s submissionID o
    (next.1, .fetchCode :: next.2)

/-- `processSubmissionAsync` of the skips checker (part_010 lines 165-240):
fetch the canonical answers; on error update to `Failed`, return only if
that update itself fails, otherwise fall through (missing `return`); then
the code fetch, the judging call, and the verdict handling.  `userAnswers`
only feeds the oracled judging call. -/
def processSubmissionAsyncSkips (s : RecordStore) (taskAlias : String)
    (submissionID : Int) (_userAnswers : List String) (o : SkipsCheckOracle) :
    RecordStore × List SubEvent :=
  match (getCodeAnswers s taskAlias).2 with
  | some _ =>
    match updateSubmissionStatusToFailed s submissionID o.updFailedAtAnswers with
    | (s1, some _) => (s1, [.fetchAnswers, .updateFailed false])
    | (s1, none) =>
      let next := skipsCheckAfterAnswers s1 taskAlias submissionID o
      (next.1, .fetchAnswers :: .updateFailed true :: next.2)
  | none =>
    let next := skipsCheckAfterAnswers s taskAlias submissionID o
    (next.1, .fetchAnswers :: next.2)

/-- Oracle for one noises-checker worker run. -/
structure NoisesCheckOracle where
  llmRes : Except GoErr NoisesVerdict
  updFailedAtAnswers : Bool
  updFailedAtCode : Bool
  updFailedAtLlm : Bool
  updSuccess : Bool
  updFailedAtSuccess : Bool
  updFailedWithHints : Bool
  updFailedAtHints : Bool

/-- Result of one noises-checker worker run: Go code can finish normally or
die of a runtime panic (`index out of range` on `correctAnswers[0]`). -/
inductive NoisesRunOutcome where
  | finished (s : RecordStore) (tr : List SubEvent)
  | panicked (s : RecordStore) (tr : List SubEvent)
  deriving DecidableEq, Repr

/-- Verdict handling of the noises checker (part_011 lines 192-223):
`score >= 100` updates to `Success` with the score; a lower score copies the
hint list elementwise (an identity copy) and updates to `Failed` with hints
and score; failed updates fall back to the plain `Failed` update. -/
def processVerdictNoises (s : RecordStore) (submissionID : Int) (v : NoisesVerdict)
    (o : NoisesCheckOracle) : RecordStore × List SubEvent :=
  if 100 ≤ v.score then
    match updateSubmissionStatusToSuccessScore s submissionID v.score o.updSuccess with
    | (s1, none) => (s1, [.updateSuccess true])
    | (s1, some _) =>
      match updateSubmissionStatusToFailed s1 submissionID o.updFailedAtSuccess with
      | (s2, none) => (s2, [.updateSuccess false, .updateFailed true])
      | (s2, some _) => (s2, [.updateSuccess false, .updateFailed false])
  else
    let hints := v.hints
    match updateSubmissionStatusToFailedWithHintsScore s submissionID hints v.score
        o.updFailedWithHints with
    | (s1, none) => (s1, [.updateFailedWithHints hints true])
    | (s1, some _) =>
      match updateSubmissionStatusToFailed s1 submissionID o.updFailedAtHints with
      | (s2, none) => (s2, [.updateFailedWithHints hints false, .updateFailed true])
      | (s2, some _) => (s2, [.updateFailedWithHints hints false, .updateFailed false])

/-- Judging stage of the noises checker (part_011 lines 171-223); like the
skips checker, a returned judging error updates to `Failed` and, when that
update succeeds, falls through to the zero-valued verdict
`{score: 0, hints: nil}`. -/
def noisesCheckJudge (s : RecordStore) (submissionID : Int) (o : NoisesCheckOracle)
    (tr : List SubEvent) : NoisesRunOutcome :=
  match o.llmRes with
  | .error _ =>
    match updateSubmissionStatusToFailed s submissionID o.updFailedAtLlm with
    | (s1, some _) => .finished s1 (tr ++ [.llmCall, .updateFailed false])
    | (s1, none) =>
      let next := processVerdictNoises s1 submissionID { score := 0, hints := [] } o
      .finished next.1 (tr ++ [.llmCall, .updateFailed true] ++ next.2)
  | .ok v =>
    let next := processVerdictNoises s submissionID v o
    .finished next.1 (tr ++ [.llmCall] ++ next.2)

/-- Evaluation of the judging call's first argument `correctAnswers[0]`
(part_011 line 171): a Go runtime panic when the slice is empty — which is
exactly the continuation state after a failed answers fetch, since
`GetCodeAnswers` returns `[]string{}` alongside its error. -/
def noisesCheckIndex (s : RecordStore) (submissionID : Int)
    (correctAnswers : List String) (o : NoisesCheckOracle) (tr : List SubEvent) :
    NoisesRunOutcome :=
  match correctAnswers with
  | [] => .panicked s tr
  | _ :: _ => noisesCheckJudge s submissionID o tr

/-- Stage of the noises checker after the answers fetch (part_011 lines
161-223): fetch the saved task code (`GetSavedTaskCode`), with the same
missing-`return` fall-through as the skips checker. -/
def noisesCheckAfterAnswers (s : RecordStore) (taskAlias : String)
    (submissionID : Int) (correctAnswers : List String) (o : NoisesCheckOracle)
    (tr : List SubEvent) : NoisesRunOutcome :=
  match (getSavedCodePair s taskAlias).2 with
  | some _ =>
    match updateSubmissionStatusToFailed s submissionID o.updFailedAtCode with
    | (s1, some _) => .finished s1 (tr ++ [.fetchCode, .updateFailed false])
    | (s1, none) =>
      noisesCheckIndex s1 submissionID correctAnswers o
        (tr ++ [.fetchCode, .updateFailed true])
  | none =>
    noisesCheckIndex s submissionID correctAnswers o (tr ++ [.fetchCode])

/-- `processSubmissionAsync` of the noises checker (part_011 lines 148-224).
`userAnswer` only feeds the oracled judging call. -/
def processSubmissionAsyncNoises (s : RecordStore) (taskAlias : String)
    (submissionID : Int) (_userAnswer : String) (o : NoisesCheckOracle) :
    NoisesRunOutcome :=
  match getCodeAnswers s taskAlias with
  | (correctAnswers, some _) =>
    match updateSubmissionStatusToFailed s submissionID o.updFailedAtAnswers with
    | (s1, some _) => .finished s1 [.fetchAnswers, .updateFailed false]
    | (s1, none) =>
      noisesCheckAfterAnswers s1 taskAlias submissionID correctAnswers o
        [.fetchAnswers, .updateFailed true]
  | (correctAnswers, none) =>
    noisesCheckAfterAnswers s taskAlias submissionID correctAnswers o [.fetchAnswers]

end SubmissionWorkers

section NoisesGeneration

/-- Which external effect of the noises `processCode` fails, if any
(generate/noises/noises.go lines 438-479): YAML prompt load, missing prompt
key, the OpenRouter call, or the JSON decode (EOF or other). -/
inductive NoisesProcOutcome where
  | loadPromptsFail (e : GoErr)
  | promptMissing
  | sendChatFail (e : GoErr)
  | unmarshalEOF
  | unmarshalFail (e : GoErr)
  | ok (noisedCode : String)
  deriving DecidableEq, Repr

/-- `processCode` of the noises generator (generate/noises/noises.go lines
438-479): on success it returns `decodedLLMResponse.NoisedCode` together
with the answer list `[]string{code}` — the single-element list holding the
original submitted source code. -/
def processCodeNoises (code : String) (o : NoisesProcOutcome) :
    Except GoErr (String × List String) :=
  match o with
  | .loadPromptsFail e => .error { e with msg := "failed to load system prompts: " ++ e.msg }
  | .promptMissing => .error { id := 4, msg := "noises prompt not found" }
  | .sendChatFail e => .error { e with msg := "failed to send request: " ++ e.msg }
  | .unmarshalEOF => .error { id := 4, msg := "request body is empty" }
  | .unmarshalFail e => .error { e with msg := "failed to decode request: " ++ e.msg }
  | .ok noised => .ok (noised, [code])

/-- `Storage.SaveNoisesCodeWithAlias` (part_005 lines 289-324): one
transaction inserting a `tasks` row with type `"noises"` and answers
`[]string{userOriginalCode}`, plus the `aliases` row; the store changes only
if the commit succeeds. -/
def saveNoisesCodeWithAlias (s : RecordStore) (noisesCode userOriginalCode : String)
    (programmingLanguageId userID : Int) (a : String) (tx : TxOutcome) :
    RecordStore × Except GoErr (Int × Int) :=
  match tx with
  | .beginFail e => (s, .error { e with msg := "failed to begin transaction: " ++ e.msg })
  | .insertTaskFail e => (s, .error { e with msg := "failed to insert task: " ++ e.msg })
  | .insertAliasFail e => (s, .error { e with msg := "failed to insert alias: " ++ e.msg })
  | .commitFail e => (s, .error { e with msg := "failed to commit transaction: " ++ e.msg })
  | .committed =>
    let taskId := s.nextTaskId
    let row : TaskRow :=
      { userId := userID, type := "noises", taskCode := noisesCode,
        userOriginalCode := userOriginalCode, answers := [userOriginalCode],
        programmingLanguageId := programmingLanguageId }
    ({ s with
        tasks := (taskId, row) :: s.tasks,
        aliases := (a, taskId) :: s.aliases,
        nextTaskId := taskId + 1 },
      .ok (taskId, taskId))

end NoisesGeneration

section RequestValidation

/-- `Request` of the noises generation handler (generate/noises/noises.go
lines 271-275), with its validator tags `sourceCode: required`,
`noiseLevel: required,gte=0,lte=10`, `programmingLanguage: required`. -/
structure NoisesRequest where
  code : String
  noiseLevel : Int
  programmingLanguage : String
  deriving DecidableEq, Repr

/-- `Request` of the skips generation handler (generate/skips/skips.go lines
25-29), with tags `sourceCode: required`, `skipsNumber: required,gte=0`,
`programmingLanguage: required`. -/
structure SkipsRequest where
  code : String
  skipsNumber : Int
  programmingLanguage : String
  deriving DecidableEq, Repr

/-- go-playground/validator v10 semantics for the tags these handlers use:
`required` fails when the field holds its type's zero value (`""` for a
string, `0` for an int) — regardless of any accompanying range tag — and
later tags of a field are not evaluated once one fails; `gte`/`lte` are
numeric comparisons.  Returns the `ValidationErrors` list as failed
field-tag labels. -/
def validateNoisesRequest (r : NoisesRequest) : List String :=
  (if r.code = "" then ["Code required"] else [])
  ++ (if r.noiseLevel = 0 then ["NoiseLevel required"]
      else (if 0 ≤ r.noiseLevel then [] else ["NoiseLevel gte"])
        ++ (if r.noiseLevel ≤ 10 then [] else ["NoiseLevel lte"]))
  ++ (if r.programmingLanguage = "" then ["ProgrammingLanguage required"] else [])

/-- Validator semantics for the skips `Request` (tags as above, without
`lte`). -/
def validateSkipsRequest (r : SkipsRequest) : List String :=
  (if r.code = "" then ["Code required"] else [])
  ++ (if r.skipsNumber = 0 then ["SkipsNumber required"]
      else if 0 ≤ r.skipsNumber then [] else ["SkipsNumber gte"])
  ++ (if r.programmingLanguage = "" then ["ProgrammingLanguage required"] else [])

/-- HTTP-visible outcome of a generation handler's synchronous part.  Only
`.okLaunched` starts the background worker (`go processTaskAsync(...)` runs
strictly after the 200 response in the source). -/
inductive GenHandlerOutcome where
  | unauthorized
  | validationError (errs : List String)
  | badLanguage
  | internalAliasCheck
  | internalSetStatus
  | okLaunched (a : String)
  deriving DecidableEq, Repr

/-- Whether the outcome launched a background generation job. -/
def jobLaunched : GenHandlerOutcome → Bool
  | .okLaunched _ => true
  | _ => false

/-- Synchronous part of the noises generation handler `New`
(generate/noises/noises.go lines 318-404), starting from a decoded request
struct: user-id check, validation (a non-empty `ValidationErrors` renders
400 and returns), language lookup, alias allocation, `Processing` status
write, 200 response and worker launch.  `userIDok` models the context
user-id assertion; `langRes` the `GetProgrammingLanguageIDByName` outcome;
`aliasPhase` the allocation-loop outcome (`none` = the loop never
terminated); `setOk` the Redis `Processing` write. -/
def noisesNewHandler (r : NoisesRequest) (userIDok : Bool)
    (langRes : Except GoErr Int) (aliasPhase : Option AliasPhaseResult)
    (setOk : Bool) : Option GenHandlerOutcome :=
  if !userIDok then some .unauthorized
  else
    match validateNoisesRequest r with
    | e :: es => some (.validationError (e :: es))
    | [] =>
      match langRes with
      | .error _ => some .badLanguage
      | .ok _ =>
        match aliasPhase with
        | none => none
        | some (.internalError _) => some .internalAliasCheck
        | some (.allocated a) =>
          if setOk then some (.okLaunched a) else some .internalSetStatus

/-- Synchronous part of the skips generation handler `New`
(generate/skips/skips.go lines 77-163), same structure. -/
def skipsNewHandler (r : SkipsRequest) (userIDok : Bool)
    (langRes : Except GoErr Int) (aliasPhase : Option AliasPhaseResult)
    (setOk : Bool) : Option GenHandlerOutcome :=
  if !userIDok then some .unauthorized
  else
    match validateSkipsRequest r with
    | e :: es => some (.validationError (e :: es))
    | [] =>
      match langRes with
      | .error _ => some .badLanguage
      | .ok _ =>
        match aliasPhase with
        | none => none
        | some (.internalError _) => some .internalAliasCheck
        | some (.allocated a) =>
          if setOk then some (.okLaunched a) else some .internalSetStatus

end RequestValidation

theorem base64urlEncode_length_ge (l : List Nat) :
    l.length ≤ (base64urlEncode l).length := by
  induction l using base64urlEncode.induct <;> simp [base64urlEncode]
  all_goals omega

theorem generateAlias_length (bytes : List Nat) (length : Nat)
    (h : bytes.length = length) : (generateAlias bytes length).length = length := by
  have := base64urlEncode_length_ge bytes
  simp [generateAlias, String.length]
  omega

theorem allocateAliasLoop_skip (length : Nat) (rand : Nat → List Nat)
    (check : Nat → Except GoErr Bool) (n : Nat) :
    ∀ i fuel, (∀ j, j < n → check (i + j) = .ok true) →
      allocateAliasLoop length rand check i (n + fuel)
        = allocateAliasLoop length rand check (i + n) fuel := by
  induction n with
  | zero => intro i fuel _; rw [Nat.zero_add, Nat.add_zero]
  | succ m ih =>
    intro i fuel h
    have h0 : check i = .ok true := by
      have := h 0 (Nat.succ_pos m); simpa using this
    have step : Nat.succ m + fuel = Nat.succ (m + fuel) := by omega
    rw [step]
    show allocateAliasLoop length rand check i (m + fuel + 1) = _
    rw [allocateAliasLoop]
    simp only [h0]
    have := ih (i + 1) fuel (fun j hj => by
      have := h (j + 1) (by omega)
      simpa [Nat.add_assoc, Nat.add_comm 1 j] using this)
    rw [this]
    congr 1
    omega

/-- C7: an alias allocation that returns normally returns exactly the
URL-safe base64 encoding of the freshly drawn random bytes truncated to
`length` characters (hence `length` characters long), for the first attempt
whose existence check reported "not exists"; and if an existence check fails
with a persistence error, the loop aborts at once and the handler surfaces
the 500 internal error instead of retrying. -/
theorem alias_allocation_first_free_or_abort
    (length k : Nat) (rand : Nat → List Nat) (check : Nat → Except GoErr Bool)
    (hprev : ∀ j, j < k → check j = .ok true)
    (hlen : (rand k).length = length) :
    (check k = .ok false →
      ∀ m, allocateAliasLoop length rand check 0 (k + 1 + m)
            = some (.ok (generateAlias (rand k) length))
        ∧ generateAlias (rand k) length
            = String.mk ((base64urlEncode (rand k)).take length)
        ∧ (generateAlias (rand k) length).length = length)
    ∧ (∀ e, check k = .error e →
        ∀ m, newHandlerAliasPhase length rand check (k + 1 + m)
            = some (.internalError "failed to check alias existence in db")) := by
  have hskip : ∀ m : Nat, allocateAliasLoop length rand check 0 (k + 1 + m)
      = allocateAliasLoop length rand check k (m + 1) := by
    intro m
    have h1 : k + 1 + m = k + (m + 1) := by omega
    rw [h1, allocateAliasLoop_skip length rand check k 0 (m + 1)
      (fun j hj => by simpa using hprev j hj)]
    simp
  constructor
  · intro hfalse m
    refine ⟨?_, rfl, generateAlias_length _ _ hlen⟩
    rw [hskip m, allocateAliasLoop]
    simp [hfalse]
  · intro e herr m
    unfold newHandlerAliasPhase
    rw [hskip m, allocateAliasLoop]
    simp [herr]

/-- C8: the alias-allocation loop has no iteration bound: when every
existence check reports "exists" without error, no amount of fuel makes the
loop terminate, from any attempt index; there is no maximum-attempts bound
and no exhaustion error. -/
theorem alias_allocation_loop_nontermination
    (length : Nat) (rand : Nat → List Nat) (check : Nat → Except GoErr Bool)
    (hall : ∀ j, check j = .ok true) :
    ∀ i fuel, allocateAliasLoop length rand check i fuel = none := by
  intro i fuel
  induction fuel generalizing i with
  | zero => rfl
  | succ f ih =>
    rw [allocateAliasLoop]
    simp only [hall i]
    exact ih (i + 1)

/-- Witness for C7 at `length = 2`, `k = 1`: attempt 0 collides, attempt 1 is
free, and the returned alias is the truncated encoding of attempt 1's bytes. -/
theorem alias_allocation_first_free_or_abort_witness :
    allocateAliasLoop 2 (fun j => [j, j + 1])
        (fun j => if j = 0 then .ok true else .ok false) 0 (1 + 1 + 0)
      = some (.ok (generateAlias [1, 2] 2)) := by
  have h := alias_allocation_first_free_or_abort 2 1 (fun j => [j, j + 1])
    (fun j => if j = 0 then .ok true else .ok false)
    (by decide) (by decide)
  exact (h.1 (by decide) 0).1

/-- Witness for C8: with checks constantly reporting "exists", the loop
yields no result within (for instance) 5 iterations starting at attempt 0. -/
theorem alias_allocation_loop_nontermination_witness :
    allocateAliasLoop 6 (fun _ => [0, 1, 2, 3, 4, 5])
        (fun _ => .ok true) 0 5 = none :=
  alias_allocation_loop_nontermination 6 (fun _ => [0, 1, 2, 3, 4, 5])
    (fun _ => .ok true) (fun _ => rfl) 0 5

theorem getTaskStatusDb_ok_lookup (c : StatusCache) (a : String) (st : TaskStatus)
    (h : getTaskStatusDb c a = .ok st) : List.lookup a c = some st := by
  unfold getTaskStatusDb at h
  cases hl : List.lookup a c with
  | none => rw [hl] at h; simp at h
  | some st0 =>
    rw [hl] at h
    simp only [Except.ok.injEq] at h
    rw [h]

/-- C1: the generation worker's `Done` StatusCache write occurs only after
the RecordStore transaction has committed.  (i) If, starting from a state
where the cache does not already show `Done` for the alias (the handler wrote
`Processing` synchronously), a poll of the final cache observes `Done` for
the alias, then a task lookup by that alias in the final RecordStore
succeeds; (ii) in the worker's event trace, every `Done` cache write is
strictly preceded by the transaction commit. -/
theorem done_write_only_after_commit
    (g : GenState) (a code : String) (sn pl uid : Int) (o : GenOracle)
    (hinit : (List.lookup a g.cache).map TaskStatus.status ≠ some "Done") :
    (∀ st, getTaskStatusDb (processTaskAsync g a code sn pl uid o).1.cache a = .ok st →
        st.status = "Done" →
        ∃ c, getSavedCode (processTaskAsync g a code sn pl uid o).1.store a = .ok c)
    ∧ (∀ i st ok, (processTaskAsync g a code sn pl uid o).2.get? i
          = some (.cacheWrite a st ok) → st.status = "Done" →
        ∃ j, j < i ∧ (processTaskAsync g a code sn pl uid o).2.get? j
          = some (.dbCommit a)) := by
  obtain ⟨proc, tx, seo, sdo⟩ := o
  have herrCase : ∀ (msg : String) (st : TaskStatus),
      getTaskStatusDb (setTaskStatus g.cache a { status := "Error", error := msg } seo) a
        = .ok st → st.status ≠ "Done" := by
    intro msg st hget
    have hlk := getTaskStatusDb_ok_lookup _ _ _ hget
    unfold setTaskStatus at hlk
    cases seo with
    | true =>
      simp [List.lookup] at hlk
      subst hlk
      simp
    | false =>
      simp only [Bool.false_eq_true, if_false] at hlk
      rw [hlk] at hinit
      simp at hinit
      intro hd
      exact hinit (by rw [hd])
  cases proc with
  | error e =>
    constructor
    · intro st hget hdone
      exact absurd hdone (herrCase e.msg st (by simpa [processTaskAsync] using hget))
    · intro i st ok h hdone
      simp only [processTaskAsync] at h
      match i, h with
      | 0, h =>
        simp only [List.get?_cons_zero, Option.some.injEq, GenEvent.cacheWrite.injEq] at h
        rw [← h.2.1] at hdone
        simp at hdone
      | n + 1, h => simp at h
  | ok r =>
    cases tx with
    | committed =>
      constructor
      · intro st _ _
        refine ⟨r.skipsCode, ?_⟩
        simp [processTaskAsync, saveSkipsCodeWithAlias, getSavedCode]
      · intro i st ok h hdone
        simp only [processTaskAsync, saveSkipsCodeWithAlias] at h ⊢
        match i, h with
        | 0, h => simp at h
        | 1, h => exact ⟨0, by omega, by simp⟩
        | n + 2, h => simp at h
    | beginFail e =>
      constructor
      · intro st hget hdone
        exact absurd hdone (herrCase _ st
          (by simpa [processTaskAsync, saveSkipsCodeWithAlias] using hget))
      · intro i st ok h hdone
        simp only [processTaskAsync, saveSkipsCodeWithAlias] at h
        match i, h with
        | 0, h =>
          simp only [List.get?_cons_zero, Option.some.injEq, GenEvent.cacheWrite.injEq] at h
          rw [← h.2.1] at hdone
          simp at hdone
        | n + 1, h => simp at h
    | insertTaskFail e =>
      constructor
      · intro st hget hdone
        exact absurd hdone (herrCase _ st
          (by simpa [processTaskAsync, saveSkipsCodeWithAlias] using hget))
      · intro i st ok h hdone
        simp only [processTaskAsync, saveSkipsCodeWithAlias] at h
        match i, h with
        | 0, h =>
          simp only [List.get?_cons_zero, Option.some.injEq, GenEvent.cacheWrite.injEq] at h
          rw [← h.2.1] at hdone
          simp at hdone
        | n + 1, h => simp at h
    | insertAliasFail e =>
      constructor
      · intro st hget hdone
        exact absurd hdone (herrCase _ st
          (by simpa [processTaskAsync, saveSkipsCodeWithAlias] using hget))
      · intro i st ok h hdone
        simp only [processTaskAsync, saveSkipsCodeWithAlias] at h
        match i, h with
        | 0, h =>
          simp only [List.get?_cons_zero, Option.some.injEq, GenEvent.cacheWrite.injEq] at h
          rw [← h.2.1] at hdone
          simp at hdone
        | n + 1, h => simp at h
    | commitFail e =>
      constructor
      · intro st hget hdone
        exact absurd hdone (herrCase _ st
          (by simpa [processTaskAsync, saveSkipsCodeWithAlias] using hget))
      · intro i st ok h hdone
        simp only [processTaskAsync, saveSkipsCodeWithAlias] at h
        match i, h with
        | 0, h =>
          simp only [List.get?_cons_zero, Option.some.injEq, GenEvent.cacheWrite.injEq] at h
          rw [← h.2.1] at hdone
          simp at hdone
        | n + 1, h => simp at h

/-- Witness for C1 at a concrete run: the cache initially shows `Processing`
for alias "x", the LLM call succeeds and the transaction commits. -/
theorem done_write_only_after_commit_witness :
    (∀ st, getTaskStatusDb (processTaskAsync
          ⟨{}, [("x", { status := "Processing" })]⟩ "x" "a+b" 1 1 1
          ⟨.ok ⟨"d", "sk", ["+"]⟩, .committed, true, true⟩).1.cache "x" = .ok st →
        st.status = "Done" →
        ∃ c, getSavedCode (processTaskAsync
          ⟨{}, [("x", { status := "Processing" })]⟩ "x" "a+b" 1 1 1
          ⟨.ok ⟨"d", "sk", ["+"]⟩, .committed, true, true⟩).1.store "x" = .ok c)
    ∧ (∀ i st ok, (processTaskAsync
          ⟨{}, [("x", { status := "Processing" })]⟩ "x" "a+b" 1 1 1
          ⟨.ok ⟨"d", "sk", ["+"]⟩, .committed, true, true⟩).2.get? i
          = some (.cacheWrite "x" st ok) → st.status = "Done" →
        ∃ j, j < i ∧ (processTaskAsync
          ⟨{}, [("x", { status := "Processing" })]⟩ "x" "a+b" 1 1 1
          ⟨.ok ⟨"d", "sk", ["+"]⟩, .committed, true, true⟩).2.get? j
          = some (.dbCommit "x")) :=
  done_write_only_after_commit
    ⟨{}, [("x", { status := "Processing" })]⟩ "x" "a+b" 1 1 1
    ⟨.ok ⟨"d", "sk", ["+"]⟩, .committed, true, true⟩ (by decide)

/-- C2: the claim says a generation-status poll for an alias unknown to the
StatusCache returns 404; on the code, the poll renders the 500 internal-error
response instead, because the handler's `errors.Is` target is a freshly
allocated `fmt.Errorf` value that can never be identical to the storage
layer's error, leaving the 404 branch dead.  Evaluated at the failing input:
alias "abc123" polled against an empty StatusCache. -/
theorem unknown_alias_poll_returns_500_not_404 :
    getTaskStatusHandler ([] : StatusCache) "abc123"
      = .internalError "internal server error" := by
  rfl

theorem lookup_updateSubmissionRow (l : List (Int × SubmissionRow)) (id : Int)
    (f : SubmissionRow → SubmissionRow) :
    List.lookup id (updateSubmissionRow l id f) = (List.lookup id l).map f := by
  induction l with
  | nil => rfl
  | cons p rest ih =>
    obtain ⟨k, r⟩ := p
    simp only [updateSubmissionRow, List.map_cons] at ih ⊢
    by_cases h : k = id
    · rw [if_pos h]
      subst h
      simp [List.lookup]
    · rw [if_neg h]
      have h2 : (id == k) = false := beq_eq_false_iff_ne.mpr (fun hh => h hh.symm)
      simp [List.lookup, h2, ih]

/-- C3: the claim says a Submission transitions exactly once from `Pending`
to a terminal state, with no further mutation and never two terminal writes
in one run.  On the code, the skips checker's fetch-error handler lacks a
`return` after a *successful* `Failed` fallback write, so the run continues
and can write a second terminal status.  Evaluated at the failing input:
submission 7 is `Pending`, alias "x" has no task rows (both fetches error),
every UPDATE succeeds, and the judging verdict is `ok` — the run writes
`Failed` twice and then `Success`. -/
theorem submission_two_terminal_writes_in_one_run :
    (processSubmissionAsyncSkips
        { submissions := [(7, { taskAlias := "x", submissionCode := ["+"], status := "Pending" })] }
        "x" 7 ["+"]
        ⟨.ok ⟨"ok", []⟩, true, true, true, true, true, true, true⟩).2
      = [.fetchAnswers, .updateFailed true, .fetchCode, .updateFailed true,
         .llmCall, .updateSuccess true]
    ∧ (List.lookup 7 (processSubmissionAsyncSkips
        { submissions := [(7, { taskAlias := "x", submissionCode := ["+"], status := "Pending" })] }
        "x" 7 ["+"]
        ⟨.ok ⟨"ok", []⟩, true, true, true, true, true, true, true⟩).1.submissions).map
        SubmissionRow.status = some "Success" := by
  constructor <;> rfl

/-- C4: the claim says a fetch or collaborator error routes the Submission
to `Failed` and stops further processing.  On the code, processing stops
only when the fallback write *fails*; when it succeeds the worker falls
through (missing `return`) and keeps going — in the noises checker it then
dies of an index-out-of-range panic on `correctAnswers[0]`, since the failed
fetch left the empty slice.  Evaluated at the failing input: submission 9 is
`Pending`, alias "y" has no task rows, every UPDATE succeeds. -/
theorem submission_worker_continues_after_failed_fallback :
    processSubmissionAsyncNoises
        { submissions := [(9, { taskAlias := "y", submissionCode := ["c"], status := "Pending" })] }
        "y" 9 "c" ⟨.ok ⟨0, []⟩, true, true, true, true, true, true, true⟩
      = .panicked
          { submissions := [(9, { taskAlias := "y", submissionCode := ["c"], status := "Failed" })] }
          [.fetchAnswers, .updateFailed true, .fetchCode, .updateFailed true] := by
  rfl

/-- C5: for every noises verdict handled by the submission worker (with the
submission present and the UPDATE statements succeeding): `score >= 100`
stores `Success` with that score; a lower score stores `Failed` with the
verdict's hints (SQL `NULL` when empty) and the score, and the hints read
back through the status-poll accessor are the verdict's hint list as an
actual (non-nil) list, possibly empty. -/
theorem noises_verdict_grading (s : RecordStore) (id : Int) (v : NoisesVerdict)
    (o : NoisesCheckOracle) (hrow : (List.lookup id s.submissions).isSome)
    (hsuc : o.updSuccess = true) (hfwh : o.updFailedWithHints = true) :
    (100 ≤ v.score →
      (List.lookup id (processVerdictNoises s id v o).1.submissions).map
          (fun r => (r.status, r.score)) = some ("Success", some v.score))
    ∧ (v.score < 100 →
      (List.lookup id (processVerdictNoises s id v o).1.submissions).map
          (fun r => (r.status, r.score, r.hints))
        = some ("Failed", some v.score, if v.hints = [] then none else some v.hints)
      ∧ getSubmissionHints (processVerdictNoises s id v o).1 id = .ok v.hints) := by
  obtain ⟨r, hr⟩ := Option.isSome_iff_exists.mp hrow
  constructor
  · intro hge
    simp only [processVerdictNoises, if_pos hge, updateSubmissionStatusToSuccessScore,
      hsuc, Bool.not_true, hr]
    simp [lookup_updateSubmissionRow, hr]
  · intro hlt
    have hnge : ¬ 100 ≤ v.score := by omega
    simp only [processVerdictNoises, if_neg hnge,
      updateSubmissionStatusToFailedWithHintsScore, hfwh, Bool.not_true, hr]
    simp only [Option.isNone_some, Bool.false_eq_true, if_false, ite_false]
    constructor
    · simp [lookup_updateSubmissionRow, hr]
    · unfold getSubmissionHints
      simp only [lookup_updateSubmissionRow, hr]
      by_cases hh : v.hints = []
      · simp [hh]
      · simp [hh]

/-- Witness for C5: submission 5 is present; verdict score 42 with one hint. -/
theorem noises_verdict_grading_witness :
    (100 ≤ (42 : Int) →
      (List.lookup 5 (processVerdictNoises
          { submissions := [(5, { taskAlias := "z", submissionCode := ["s"], status := "Pending" })] }
          5 ⟨42, ["h1"]⟩
          ⟨.ok ⟨42, ["h1"]⟩, true, true, true, true, true, true, true⟩).1.submissions).map
          (fun r => (r.status, r.score)) = some ("Success", some 42))
    ∧ ((42 : Int) < 100 →
      (List.lookup 5 (processVerdictNoises
          { submissions := [(5, { taskAlias := "z", submissionCode := ["s"], status := "Pending" })] }
          5 ⟨42, ["h1"]⟩
          ⟨.ok ⟨42, ["h1"]⟩, true, true, true, true, true, true, true⟩).1.submissions).map
          (fun r => (r.status, r.score, r.hints))
        = some ("Failed", some 42, if (["h1"] : List String) = [] then none else some ["h1"])
      ∧ getSubmissionHints (processVerdictNoises
          { submissions := [(5, { taskAlias := "z", submissionCode := ["s"], status := "Pending" })] }
          5 ⟨42, ["h1"]⟩
          ⟨.ok ⟨42, ["h1"]⟩, true, true, true, true, true, true, true⟩).1 5 = .ok ["h1"]) :=
  noises_verdict_grading
    { submissions := [(5, { taskAlias := "z", submissionCode := ["s"], status := "Pending" })] }
    5 ⟨42, ["h1"]⟩ ⟨.ok ⟨42, ["h1"]⟩, true, true, true, true, true, true, true⟩
    (by decide) rfl rfl

/-- C6: for every skips verdict handled by the submission worker (with the
submission present and the UPDATE statements succeeding): status `"ok"`
stores `Success`; any other status stores `Failed` with one rendered hint
per verdict hint, in verdict order, each formatted from the hint's index and
message, as read back by the status-poll accessor. -/
theorem skips_verdict_grading (s : RecordStore) (id : Int) (v : SkipsVerdict)
    (o : SkipsCheckOracle) (hrow : (List.lookup id s.submissions).isSome)
    (hsuc : o.updSuccess = true) (hfwh : o.updFailedWithHints = true) :
    (v.status = "ok" →
      (List.lookup id (processVerdictSkips s id v o).1.submissions).map
          SubmissionRow.status = some "Success")
    ∧ (v.status ≠ "ok" →
      (List.lookup id (processVerdictSkips s id v o).1.submissions).map
          (fun r => (r.status, r.hints))
        = some ("Failed", if v.hints.map renderSkipHint = [] then none
            else some (v.hints.map renderSkipHint))
      ∧ getSubmissionHints (processVerdictSkips s id v o).1 id
        = .ok (v.hints.map renderSkipHint)) := by
  obtain ⟨r, hr⟩ := Option.isSome_iff_exists.mp hrow
  constructor
  · intro hok
    simp only [processVerdictSkips, if_pos hok, updateSubmissionStatusToSuccess,
      hsuc, Bool.not_true, hr]
    simp [lookup_updateSubmissionRow, hr]
  · intro hnok
    simp only [processVerdictSkips, if_neg hnok,
      updateSubmissionStatusToFailedWithHints, hfwh, Bool.not_true, hr]
    simp only [Option.isNone_some, Bool.false_eq_true, if_false, ite_false]
    constructor
    · simp [lookup_updateSubmissionRow, hr]
    · unfold getSubmissionHints
      simp only [lookup_updateSubmissionRow, hr]
      by_cases hh : v.hints.map renderSkipHint = []
      · simp [hh]
      · simp [hh]

/-- Witness for C6: submission 6 is present; verdict status `"wrong"` with
one `{index: 0, message: "w"}` hint. -/
theorem skips_verdict_grading_witness :
    (("wrong" : String) = "ok" →
      (List.lookup 6 (processVerdictSkips
          { submissions := [(6, { taskAlias := "q", submissionCode := ["-"], status := "Pending" })] }
          6 ⟨"wrong", [⟨0, "w"⟩]⟩
          ⟨.ok ⟨"wrong", [⟨0, "w"⟩]⟩, true, true, true, true, true, true, true⟩).1.submissions).map
          SubmissionRow.status = some "Success")
    ∧ (("wrong" : String) ≠ "ok" →
      (List.lookup 6 (processVerdictSkips
          { submissions := [(6, { taskAlias := "q", submissionCode := ["-"], status := "Pending" })] }
          6 ⟨"wrong", [⟨0, "w"⟩]⟩
          ⟨.ok ⟨"wrong", [⟨0, "w"⟩]⟩, true, true, true, true, true, true, true⟩).1.submissions).map
          (fun r => (r.status, r.hints))
        = some ("Failed", if ([⟨0, "w"⟩] : List SkipsHint).map renderSkipHint = [] then none
            else some (([⟨0, "w"⟩] : List SkipsHint).map renderSkipHint))
      ∧ getSubmissionHints (processVerdictSkips
          { submissions := [(6, { taskAlias := "q", submissionCode := ["-"], status := "Pending" })] }
          6 ⟨"wrong", [⟨0, "w"⟩]⟩
          ⟨.ok ⟨"wrong", [⟨0, "w"⟩]⟩, true, true, true, true, true, true, true⟩).1 6
        = .ok (([⟨0, "w"⟩] : List SkipsHint).map renderSkipHint)) :=
  skips_verdict_grading
    { submissions := [(6, { taskAlias := "q", submissionCode := ["-"], status := "Pending" })] }
    6 ⟨"wrong", [⟨0, "w"⟩]⟩ ⟨.ok ⟨"wrong", [⟨0, "w"⟩]⟩, true, true, true, true, true, true, true⟩
    (by decide) rfl rfl

/-- C9: every task persisted with type `"noises"` carries exactly one
answer, equal to the original submitted source code: the noises
`processCode` returns the single-element answer list `[code]` on success,
`SaveNoisesCodeWithAlias` inserts the answers column `[userOriginalCode]`
for its `"noises"` row (so reading the answers back by the new alias yields
exactly that list), and neither it nor the skips save ever adds a `"noises"`
row with any other answers. -/
theorem noises_task_single_answer_original
    (s : RecordStore) (origCode noisedCode : String) (pl uid : Int) (a : String)
    (o : NoisesProcOutcome) :
    (∀ nc answers, processCodeNoises origCode o = .ok (nc, answers) →
        answers.length = 1 ∧ answers = [origCode])
    ∧ getCodeAnswers (saveNoisesCodeWithAlias s noisedCode origCode pl uid a .committed).1 a
        = ([origCode], none)
    ∧ (∀ tid row, List.lookup tid
          (saveNoisesCodeWithAlias s noisedCode origCode pl uid a .committed).1.tasks
          = some row → row.type = "noises" →
        List.lookup tid s.tasks = some row ∨ row.answers = [origCode])
    ∧ (∀ answers2 tid row, List.lookup tid
          (saveSkipsCodeWithAlias s noisedCode answers2 pl uid a .committed).1.tasks
          = some row → row.type = "noises" →
        List.lookup tid s.tasks = some row) := by
  refine ⟨?_, ?_, ?_, ?_⟩
  · intro nc answers h
    cases o <;> simp [processCodeNoises] at h
    obtain ⟨-, h2⟩ := h
    rw [← h2]
    simp
  · simp [saveNoisesCodeWithAlias, getCodeAnswers, List.lookup]
  · intro tid row h htype
    simp only [saveNoisesCodeWithAlias] at h
    by_cases htid : tid = s.nextTaskId
    · subst htid
      simp [List.lookup] at h
      right
      rw [← h]
    · left
      have h2 : (tid == s.nextTaskId) = false :=
        beq_eq_false_iff_ne.mpr htid
      simpa [List.lookup, h2] using h
  · intro answers2 tid row h htype
    simp only [saveSkipsCodeWithAlias] at h
    by_cases htid : tid = s.nextTaskId
    · subst htid
      simp [List.lookup] at h
      rw [← h] at htype
      simp at htype
    · have h2 : (tid == s.nextTaskId) = false :=
        beq_eq_false_iff_ne.mpr htid
      simpa [List.lookup, h2] using h

/-- Witness for C9 at a concrete state and a successful generation. -/
theorem noises_task_single_answer_original_witness :
    (∀ nc answers, processCodeNoises "a+b" (.ok "a?b") = .ok (nc, answers) →
        answers.length = 1 ∧ answers = ["a+b"])
    ∧ getCodeAnswers (saveNoisesCodeWithAlias {} "a?b" "a+b" 1 1 "w" .committed).1 "w"
        = (["a+b"], none)
    ∧ (∀ tid row, List.lookup tid
          (saveNoisesCodeWithAlias {} "a?b" "a+b" 1 1 "w" .committed).1.tasks
          = some row → row.type = "noises" →
        List.lookup tid ({} : RecordStore).tasks = some row ∨ row.answers = ["a+b"])
    ∧ (∀ answers2 tid row, List.lookup tid
          (saveSkipsCodeWithAlias {} "a?b" answers2 1 1 "w" .committed).1.tasks
          = some row → row.type = "noises" →
        List.lookup tid ({} : RecordStore).tasks = some row) :=
  noises_task_single_answer_original {} "a+b" "a?b" 1 1 "w" (.ok "a?b")

theorem noisesNewHandler_validation (r : NoisesRequest) (lr : Except GoErr Int)
    (ap : Option AliasPhaseResult) (so : Bool)
    (h : validateNoisesRequest r ≠ []) :
    noisesNewHandler r true lr ap so
      = some (.validationError (validateNoisesRequest r)) := by
  unfold noisesNewHandler
  cases hv : validateNoisesRequest r with
  | nil => exact absurd hv h
  | cons e es => simp

theorem skipsNewHandler_validation (r : SkipsRequest) (lr : Except GoErr Int)
    (ap : Option AliasPhaseResult) (so : Bool)
    (h : validateSkipsRequest r ≠ []) :
    skipsNewHandler r true lr ap so
      = some (.validationError (validateSkipsRequest r)) := by
  unfold skipsNewHandler
  cases hv : validateSkipsRequest r with
  | nil => exact absurd hv h
  | cons e es => simp

/-- C10: a noises request with `NoiseLevel = 0` and a skips request with
`SkipsNumber = 0` are rejected by the synchronous handlers as validation
errors (HTTP 400), whatever the other fields and collaborator outcomes, and
no background job is launched — because validator v10's `required` treats
the integer zero value as missing even though `gte=0` permits 0. -/
theorem zero_count_rejected_as_validation_error
    (rn : NoisesRequest) (rs : SkipsRequest) (lrn lrs : Except GoErr Int)
    (apn aps : Option AliasPhaseResult) (son sos : Bool)
    (hn : rn.noiseLevel = 0) (hs : rs.skipsNumber = 0) :
    (noisesNewHandler rn true lrn apn son
        = some (.validationError (validateNoisesRequest rn))
      ∧ "NoiseLevel required" ∈ validateNoisesRequest rn)
    ∧ (skipsNewHandler rs true lrs aps sos
        = some (.validationError (validateSkipsRequest rs))
      ∧ "SkipsNumber required" ∈ validateSkipsRequest rs)
    ∧ (∀ out, noisesNewHandler rn true lrn apn son = some out → jobLaunched out = false)
    ∧ (∀ out, skipsNewHandler rs true lrs aps sos = some out → jobLaunched out = false) := by
  have hmn : "NoiseLevel required" ∈ validateNoisesRequest rn := by
    unfold validateNoisesRequest
    rw [hn]
    simp
  have hms : "SkipsNumber required" ∈ validateSkipsRequest rs := by
    unfold validateSkipsRequest
    rw [hs]
    simp
  have hne : validateNoisesRequest rn ≠ [] := by
    intro hnil
    rw [hnil] at hmn
    exact absurd hmn (List.not_mem_nil _)
  have hse : validateSkipsRequest rs ≠ [] := by
    intro hnil
    rw [hnil] at hms
    exact absurd hms (List.not_mem_nil _)
  have h1 := noisesNewHandler_validation rn lrn apn son hne
  have h2 := skipsNewHandler_validation rs lrs aps sos hse
  refine ⟨⟨h1, hmn⟩, ⟨h2, hms⟩, ?_, ?_⟩
  · intro out hout
    rw [h1] at hout
    simp only [Option.some.injEq] at hout
    rw [← hout]
    rfl
  · intro out hout
    rw [h2] at hout
    simp only [Option.some.injEq] at hout
    rw [← hout]
    rfl

/-- Witness for C10: concrete zero-valued requests with otherwise valid
fields and arbitrary collaborator outcomes. -/
theorem zero_count_rejected_as_validation_error_witness :
    (noisesNewHandler ⟨"a+b", 0, "go"⟩ true (.ok 1) (some (.allocated "w")) true
        = some (.validationError (validateNoisesRequest ⟨"a+b", 0, "go"⟩))
      ∧ "NoiseLevel required" ∈ validateNoisesRequest ⟨"a+b", 0, "go"⟩)
    ∧ (skipsNewHandler ⟨"a+b", 0, "go"⟩ true (.ok 1) (some (.allocated "w")) true
        = some (.validationError (validateSkipsRequest ⟨"a+b", 0, "go"⟩))
      ∧ "SkipsNumber required" ∈ validateSkipsRequest ⟨"a+b", 0, "go"⟩)
    ∧ (∀ out, noisesNewHandler ⟨"a+b", 0, "go"⟩ true (.ok 1) (some (.allocated "w")) true
        = some out → jobLaunched out = false)
    ∧ (∀ out, skipsNewHandler ⟨"a+b", 0, "go"⟩ true (.ok 1) (some (.allocated "w")) true
        = some out → jobLaunched out = false) :=
  zero_count_rejected_as_validation_error ⟨"a+b", 0, "go"⟩ ⟨"a+b", 0, "go"⟩
    (.ok 1) (.ok 1) (some (.allocated "w")) (some (.allocated "w")) true true rfl rfl
